import Mathlib

/-!
Verification of the MediaPlayer repository core (src/app.py, src/share_store.py).

Shallow embedding conventions:
* Python strings are `List Char` (`PyStr`), so that `str.strip` / `str.split`
  become executable Lean functions mirroring the CPython semantics used by the
  code (`os.sep = "/"` on the POSIX deployment the code targets).
* Filesystem paths are lists of path segments (`List PyStr`); the filesystem
  itself (`Path.resolve` canonicalization including symlinks, `is_file`,
  `is_dir`) is an abstract `FileSystem` record, since `resolve_under_root`
  treats it as an oracle.
* Timestamps are `Nat`.  Both timestamp formats used by the code (the
  `%Y-%m-%dT%H:%M:%SZ` strings written by `share_store._utcnow` and the
  `YYYY-MM-DD HH:MM:SS` strings produced by SQLite `datetime('now', ...)`)
  compare chronologically — string comparison inside one format and the
  `datetime.fromisoformat` comparison in `is_share_active` all agree with
  comparison of the underlying instants — so a single linearly ordered clock
  value is a faithful model.  All rows are written by `create_share` /
  `revoke`, hence timestamps are well-formed (parseable, non-empty) and
  Python truthiness of `revoked_at` coincides with `Option.isSome`.
* The SQLite table (token PRIMARY KEY) is a `List ShareRecord` in insertion
  order; each store function is the direct transcription of its SQL.
-/

/-- Python strings, modelled as lists of characters. -/
abbrev PyStr := List Char

/-- The whitespace characters removed by Python's default `str.strip()`
(the ASCII ones; the code only ever strips query/form values). -/
def isPySpace (c : Char) : Bool :=
  c = ' ' || c = '\t' || c = '\n' || c = '\r' || c = '\x0b' || c = '\x0c'

/-- Python `s.strip()`: drop leading and trailing whitespace. -/
def pyStrip (s : PyStr) : PyStr :=
  List.rdropWhile isPySpace (List.dropWhile isPySpace s)

/-- Python `s.split(sep)` for a single-character separator: the list of
chunks between separator occurrences (`"".split(sep) = [""]`). -/
def pySplit (sep : Char) : PyStr → List PyStr
  | [] => [[]]
  | c :: cs =>
    if c = sep then [] :: pySplit sep cs
    else
      match pySplit sep cs with
      | [] => [[c]]
      | h :: t => (c :: h) :: t

/-- Python `s.isdigit()` restricted to ASCII input: non-empty and all
characters are decimal digits (the form values the code feeds it are ASCII). -/
def pyIsDigit (s : PyStr) : Bool :=
  !s.isEmpty && s.all Char.isDigit

/-- Python `int(s)` on a digit string. -/
def pyToNat (s : PyStr) : Nat :=
  s.foldl (fun a c => a * 10 + (c.toNat - 48)) 0

/-- The literal `".."`. -/
def dotdot : PyStr := ['.', '.']

/-- The literal `"."`. -/
def dot : PyStr := ['.']

/-!
## PathResolver: `resolve_under_root` (src/app.py lines 88-118)

A filesystem path is a list of segments (`List PyStr`).  `Path.resolve()`
canonicalization (symlinks, normalization) and the `is_file` / `is_dir`
queries are an abstract oracle: `canonOk p = false` models
`candidate.resolve()` raising `OSError` (the `try`/`except` at lines
103-106), `canon` gives the canonical form, used both for the candidate and
for `root.resolve()` at line 107.  `p.is_relative_to(q)` on canonical
absolute paths is the segment-prefix relation (the `AttributeError`
fallback at lines 110-115 computes the same relation via `relative_to`).
-/

/-- Abstract filesystem oracle for `resolve_under_root`. -/
structure FileSystem where
  canonOk : List PyStr → Bool
  canon : List PyStr → List PyStr
  isFile : List PyStr → Bool
  isDir : List PyStr → Bool

/-- Line 99: `[part for part in relative.strip().split(os.sep) if part and part != "."]`. -/
def resolveParts (relative : PyStr) : List PyStr :=
  (pySplit '/' (pyStrip relative)).filter (fun part => decide (¬(part = [] ∨ part = dot)))

/-- Lines 107-115: the containment check `resolved == root_real or
resolved.is_relative_to(root_real)` for the candidate built from `relative`. -/
def underRootCheck (fs : FileSystem) (root : List PyStr) (relative : PyStr) : Prop :=
  fs.canon (root ++ resolveParts relative) = fs.canon root ∨
    fs.canon root <+: fs.canon (root ++ resolveParts relative)

instance (fs : FileSystem) (root : List PyStr) (relative : PyStr) :
    Decidable (underRootCheck fs root relative) := by
  unfold underRootCheck
  infer_instance

/-- Model of `resolve_under_root(root, relative, must_be_file=..., must_be_dir=...)`
(src/app.py lines 88-118), over the abstract filesystem `fs`. -/
def resolve_under_root (fs : FileSystem) (root : List PyStr) (relative : PyStr)
    (must_be_file : Bool) (must_be_dir : Bool) : Option (List PyStr) :=
  let parts := resolveParts relative
  if dotdot ∈ parts then none
  else
    let candidate := root ++ parts
    if fs.canonOk candidate = false then none
    else
      let resolved := fs.canon candidate
      if ¬underRootCheck fs root relative ∨
          (must_be_file ∧ ¬(fs.isFile resolved = true)) ∨
          (must_be_dir ∧ ¬(fs.isDir resolved = true)) then none
      else some resolved

/-- The claim's hypothesis for C1: the raw relative string contains a `".."`
segment (a chunk of the `os.sep`-split equal to `".."`). -/
def hasDotDotSegment (relative : PyStr) : Bool :=
  decide (dotdot ∈ pySplit '/' relative)

/-!
## ShareStore (src/share_store.py)

The SQLite table `shares` (token TEXT PRIMARY KEY, file_path TEXT NOT NULL,
created_at TEXT NOT NULL, expires_at TEXT, revoked_at TEXT) is a list of
records in insertion order; the UTC clock is an explicit `now : Nat`
argument standing for the instant at which the operation runs.
-/

/-- One row of the `shares` table. -/
structure ShareRecord where
  token : PyStr
  file_path : PyStr
  created_at : Nat
  expires_at : Option Nat
  revoked_at : Option Nat
deriving DecidableEq

/-- The `shares` table in insertion order. -/
abbrev Store := List ShareRecord

/-- Model of `init(db_path)` (lines 14-31): `CREATE TABLE IF NOT EXISTS` — a missing
database becomes the empty table, an existing one is kept untouched. -/
def store_init (existing : Option Store) : Store :=
  existing.getD []

/-- Model of `get_by_token(db_path, token)` (lines 34-46): `SELECT ... WHERE token = ?`
with `fetchone()`; `token` is the PRIMARY KEY, so the first match is the row. -/
def get_by_token (db : Store) (token : PyStr) : Option ShareRecord :=
  db.find? (fun r => decide (r.token = token))

/-- The row filter of `get_active_by_file_path` (lines 53-63):
`file_path = ? AND revoked_at IS NULL AND (expires_at IS NULL OR
expires_at > datetime('now'))`; `sqlNotExpired` is the parenthesised
disjunct. -/
def sqlNotExpired (now : Nat) (expires_at : Option Nat) : Bool :=
  match expires_at with
  | none => true
  | some e => decide (now < e)

def activeRowPred (file_path : PyStr) (now : Nat) (r : ShareRecord) : Bool :=
  decide (r.file_path = file_path ∧ r.revoked_at = none) &&
    sqlNotExpired now r.expires_at

/-- Model of `ORDER BY created_at DESC LIMIT 1`: pick a row of maximal `created_at`. -/
def latestCreated : Store → Option ShareRecord
  | [] => none
  | r :: rs =>
    match latestCreated rs with
    | none => some r
    | some b => if b.created_at < r.created_at then some r else some b

/-- Model of `get_active_by_file_path(db_path, file_path)` (lines 49-68). -/
def get_active_by_file_path (db : Store) (file_path : PyStr) (now : Nat) :
    Option ShareRecord :=
  latestCreated (db.filter (activeRowPred file_path now))

/-- Model of `create_share(db_path, file_path, expires_at_seconds)` (lines 71-92):
insert a fresh row with `created_at = now`, `expires_at = now + seconds`
(SQLite `datetime('now', '+N seconds')`) or NULL, `revoked_at = NULL`.
The random `secrets.token_urlsafe(32)` value is the `token` argument. -/
def create_share (db : Store) (file_path : PyStr) (expires_at_seconds : Option Nat)
    (token : PyStr) (now : Nat) : PyStr × Store :=
  (token,
   db ++ [ShareRecord.mk token file_path now
     (expires_at_seconds.map (fun s => now + s)) none])

/-- Model of `revoke(db_path, token)` (lines 95-105): `UPDATE shares SET revoked_at =
datetime('now') WHERE token = ? AND revoked_at IS NULL`; returns
`rowcount > 0` together with the updated table. -/
def revoke (db : Store) (token : PyStr) (now : Nat) : Bool × Store :=
  (decide (0 < db.countP (fun r => decide (r.token = token ∧ r.revoked_at = none))),
   db.map (fun r =>
     if r.token = token ∧ r.revoked_at = none then
       ShareRecord.mk r.token r.file_path r.created_at r.expires_at (some now)
     else r))

/-- Model of `is_share_active(row)` (lines 108-120): false when `revoked_at` is set
(a non-empty timestamp string, hence truthy), true when `expires_at` is NULL,
else `expires_at > utcnow()`.  The rows reaching it come from the table, so
`expires_at` always parses. -/
def is_share_active (row : ShareRecord) (now : Nat) : Bool :=
  if row.revoked_at.isSome then false
  else
    match row.expires_at with
    | none => true
    | some e => decide (now < e)

/-!
## Route handlers (src/app.py)
-/

/-- Outcome of `view_by_token` (lines 492-515).  `error` is an uncaught
Python exception escaping the handler (HTTP 500), distinct from the
`abort(404)` outcome. -/
inductive TokenViewOutcome where
  | error : TokenViewOutcome
  | notFound : TokenViewOutcome
  | serve : List PyStr → TokenViewOutcome
deriving DecidableEq

/-- Model of `view_by_token(token)` (src/app.py lines 492-515).  Line 501 runs
`print(share_store.is_share_active(row))` BEFORE the `if not row` guard of
line 502; when the token has no row, `row` is `None` and `None.get(...)`
raises `AttributeError`, so the handler errors out instead of reaching
`abort(404)`. -/
def view_by_token (db : Store) (fs : FileSystem) (root : List PyStr)
    (token : PyStr) (now : Nat) : TokenViewOutcome :=
  match get_by_token db token with
  | none => TokenViewOutcome.error
  | some row =>
    if ¬(is_share_active row now = true) then TokenViewOutcome.notFound
    else
      match resolve_under_root fs root row.file_path true false with
      | none => TokenViewOutcome.notFound
      | some resolved =>
        if ¬(fs.isFile resolved = true) then TokenViewOutcome.notFound
        else TokenViewOutcome.serve resolved

/-- Outcome of the private `view` route (lines 404-420), decision skeleton. -/
inductive ViewOutcome where
  | forbidden : ViewOutcome
  | notFound : ViewOutcome
  | serve : List PyStr → ViewOutcome
deriving DecidableEq

/-- Model of `view()` (src/app.py lines 404-420): strip the query value, resolve with
`must_be_file=True`; `None` → 403, a non-file (only possible through a
filesystem race, never in this sequential model) → 404, else serve. -/
def view_route (fs : FileSystem) (root : List PyStr) (path_query : PyStr) :
    ViewOutcome :=
  let raw := pyStrip path_query
  match resolve_under_root fs root raw true false with
  | none => ViewOutcome.forbidden
  | some resolved =>
    if ¬(fs.isFile resolved = true) then ViewOutcome.notFound
    else ViewOutcome.serve resolved

/-- TTL computation of the share POST handler (src/app.py lines 448-458):
`"never"` → NULL, `"custom"` with a digit-string value → value in hours or
days converted to seconds, anything else → the configured default. -/
def compute_expiry (expires custom_value custom_unit : PyStr)
    (default_ttl : Nat) : Option Nat :=
  if expires = ['n', 'e', 'v', 'e', 'r'] then none
  else if expires = ['c', 'u', 's', 't', 'o', 'm'] ∧ pyIsDigit custom_value = true then
    some (pyToNat custom_value *
      (if custom_unit = ['d', 'a', 'y', 's'] then 86400 else 3600))
  else some default_ttl

/-- Outcome of the share POST handler. -/
inductive ShareOutcome where
  | badRequest : ShareOutcome
  | forbidden : ShareOutcome
  | redirectResult : PyStr → ShareOutcome
deriving DecidableEq

/-- POST `share()` (src/app.py lines 422-460): strip the form path (400 when
empty), resolve with `must_be_file=True` (403 on failure), reuse an active
share's token when one exists, otherwise compute the TTL and insert a fresh
record.  `fresh_token` stands for the `secrets.token_urlsafe(32)` draw; the
database is configured (the 503 guard of line 433 does not fire). -/
def share_post (fs : FileSystem) (root : List PyStr) (db : Store)
    (path_form expires custom_value_form custom_unit : PyStr)
    (default_ttl : Nat) (fresh_token : PyStr) (now : Nat) :
    ShareOutcome × Store :=
  let raw := pyStrip path_form
  if raw = [] then (ShareOutcome.badRequest, db)
  else
    match resolve_under_root fs root raw true false with
    | none => (ShareOutcome.forbidden, db)
    | some resolved =>
      if ¬(fs.isFile resolved = true) then (ShareOutcome.forbidden, db)
      else
        match get_active_by_file_path db raw now with
        | some existing => (ShareOutcome.redirectResult existing.token, db)
        | none =>
          let expires_seconds :=
            compute_expiry expires (pyStrip custom_value_form) custom_unit default_ttl
          let res := create_share db raw expires_seconds fresh_token now
          (ShareOutcome.redirectResult res.1, res.2)

/-!
## Concrete fixtures used by witnesses and counterexamples
-/

/-- A trivial filesystem: canonicalization is the identity and always
succeeds, every path is both an existing file and an existing directory. -/
def fsId : FileSystem :=
  FileSystem.mk (fun _ => true) (fun p => p) (fun _ => true) (fun _ => true)

/-- Path segment `"media"`. -/
def mediaSeg : PyStr := ['m', 'e', 'd', 'i', 'a']

/-- Path segment `"etc"`. -/
def etcSeg : PyStr := ['e', 't', 'c']

/-- Path segment `"link"`. -/
def linkSeg : PyStr := ['l', 'i', 'n', 'k']

/-- Path segment `"dir"`. -/
def dirSeg : PyStr := ['d', 'i', 'r']

/-- A filesystem where `media/link` is a symlink whose canonical form
`etc` lies outside the root `media`, and nothing is a file or directory. -/
def fsEscape : FileSystem :=
  FileSystem.mk
    (fun _ => true)
    (fun p => if p = [mediaSeg, linkSeg] then [etcSeg] else p)
    (fun _ => false)
    (fun _ => false)

/-- A share token fixture. -/
def tokA : PyStr := ['t', 'k', 'a']

/-- Another share token fixture. -/
def tokB : PyStr := ['t', 'k', 'b']

/-- A stored file path fixture (`"f"`). -/
def fpA : PyStr := ['f']

/-- A one-row store: an unrevoked, never-expiring share of `fpA`. -/
def dbOne : Store := [ShareRecord.mk tokA fpA 0 none none]

/-- An entry name beginning with whitespace (`" foo"`). -/
def spaceFoo : PyStr := [' ', 'f', 'o', 'o']
theorem pySplit_ne_nil (sep : Char) (s : PyStr) : pySplit sep s ≠ [] := by
  cases s with
  | nil => simp [pySplit]
  | cons c cs =>
    simp only [pySplit]
    split
    · simp
    · split
      · simp
      · simp

theorem mem_pySplit_dropWhile (s : PyStr)
    (h : dotdot ∈ pySplit '/' s) :
    dotdot ∈ pySplit '/' (List.dropWhile isPySpace s) := by
  induction s with
  | nil => simpa using h
  | cons c cs ih =>
    rw [List.dropWhile_cons]
    by_cases hc : isPySpace c = true
    · rw [if_pos hc]
      apply ih
      have hslash : ¬(c = '/') := by
        intro heq
        rw [heq] at hc
        simp [isPySpace] at hc
      rw [pySplit, if_neg hslash] at h
      obtain ⟨hd, tl, hsplit⟩ := List.exists_cons_of_ne_nil (pySplit_ne_nil '/' cs)
      rw [hsplit] at h ⊢
      rcases List.mem_cons.mp h with heq | htl
      · exfalso
        have hcd : '.' = c := by
          have := congrArg (fun l => l.head?) heq
          simpa [dotdot] using this
        rw [← hcd] at hc
        simp [isPySpace] at hc
      · exact List.mem_cons_of_mem _ htl
    · rw [if_neg hc]
      exact h

theorem pySplit_concat_ne (sep c : Char) (hc : ¬(c = sep)) (xs : PyStr) :
    ∃ ys y, pySplit sep xs = ys ++ [y] ∧
      pySplit sep (xs ++ [c]) = ys ++ [y ++ [c]] := by
  induction xs with
  | nil =>
    refine ⟨[], [], by simp [pySplit], ?_⟩
    simp [pySplit, hc]
  | cons a as ih =>
    obtain ⟨ys, y, h1, h2⟩ := ih
    by_cases ha : a = sep
    · refine ⟨[] :: ys, y, ?_, ?_⟩
      · rw [pySplit, if_pos ha, h1]
        simp
      · rw [List.cons_append, pySplit, if_pos ha, h2]
        simp
    · cases ys with
      | nil =>
        refine ⟨[], a :: y, ?_, ?_⟩
        · rw [pySplit, if_neg ha, h1]
          simp
        · rw [List.cons_append, pySplit, if_neg ha, h2]
          simp
      | cons z zs =>
        refine ⟨(a :: z) :: zs, y, ?_, ?_⟩
        · rw [pySplit, if_neg ha, h1]
          simp
        · rw [List.cons_append, pySplit, if_neg ha, h2]
          simp

theorem mem_pySplit_rdropWhile (s : PyStr)
    (h : dotdot ∈ pySplit '/' s) :
    dotdot ∈ pySplit '/' (List.rdropWhile isPySpace s) := by
  induction s using List.reverseRecOn with
  | nil => simp [pySplit, dotdot] at h
  | append_singleton xs c ih =>
    rw [List.rdropWhile_concat]
    by_cases hc : isPySpace c = true
    · rw [if_pos hc]
      apply ih
      have hslash : ¬(c = '/') := by
        intro heq
        rw [heq] at hc
        simp [isPySpace] at hc
      obtain ⟨ys, y, h1, h2⟩ := pySplit_concat_ne '/' c hslash xs
      rw [h2] at h
      rcases List.mem_append.mp h with hmem | hlast
      · rw [h1]
        exact List.mem_append.mpr (Or.inl hmem)
      · exfalso
        have hl : dotdot = y ++ [c] := by simpa using hlast
        have hcd : '.' = c := by
          have := congrArg (fun l => l.getLast?) hl
          simpa [dotdot, List.getLast?_concat] using this
        rw [← hcd] at hc
        simp [isPySpace] at hc
    · rw [if_neg hc]
      exact h

theorem dropWhile_head_not (p : Char → Bool) (s : PyStr) (c : Char) (cs : PyStr)
    (h : List.dropWhile p s = c :: cs) : p c = false := by
  induction s with
  | nil => simp at h
  | cons a as ih =>
    rw [List.dropWhile_cons] at h
    by_cases ha : p a = true
    · rw [if_pos ha] at h
      exact ih h
    · rw [if_neg ha] at h
      have : a = c := by
        have := congrArg (fun l => l.head?) h
        simpa using this
      rw [← this]
      exact Bool.not_eq_true _ |>.mp ha

theorem pyStrip_idem (s : PyStr) : pyStrip (pyStrip s) = pyStrip s := by
  unfold pyStrip
  have hdec : ∃ u, List.dropWhile isPySpace s =
      List.rdropWhile isPySpace (List.dropWhile isPySpace s) ++ u := by
    refine ⟨(List.takeWhile isPySpace (List.dropWhile isPySpace s).reverse).reverse, ?_⟩
    rw [List.rdropWhile, ← List.reverse_append, List.takeWhile_append_dropWhile,
      List.reverse_reverse]
  have hfix : List.dropWhile isPySpace
      (List.rdropWhile isPySpace (List.dropWhile isPySpace s)) =
      List.rdropWhile isPySpace (List.dropWhile isPySpace s) := by
    obtain ⟨u, hu⟩ := hdec
    cases hrd : List.rdropWhile isPySpace (List.dropWhile isPySpace s) with
    | nil => simp
    | cons c cs =>
      rw [hrd] at hu
      have hc : isPySpace c = false :=
        dropWhile_head_not isPySpace s c (cs ++ u) (by simpa using hu)
      rw [List.dropWhile_cons, if_neg (by simp [hc])]
  rw [hfix, List.rdropWhile_idempotent]

theorem resolveParts_pyStrip (relative : PyStr) :
    resolveParts (pyStrip relative) = resolveParts relative := by
  unfold resolveParts
  rw [pyStrip_idem]

theorem underRootCheck_pyStrip (fs : FileSystem) (root : List PyStr)
    (relative : PyStr) :
    underRootCheck fs root (pyStrip relative) = underRootCheck fs root relative := by
  unfold underRootCheck
  rw [resolveParts_pyStrip]

/-- C1: for every filesystem state, every root, and every relative path
string containing a `".."` segment anywhere, `resolve_under_root` returns
Invalid (`none`) by the lexical check alone, whatever the
`must_be_file` / `must_be_dir` flags are. -/
theorem resolve_rejects_dotdot (fs : FileSystem) (root : List PyStr)
    (relative : PyStr) (must_be_file must_be_dir : Bool)
    (h : hasDotDotSegment relative = true) :
    resolve_under_root fs root relative must_be_file must_be_dir = none := by
  have hmem : dotdot ∈ pySplit '/' relative := of_decide_eq_true h
  have h1 := mem_pySplit_dropWhile relative hmem
  have h2 := mem_pySplit_rdropWhile (List.dropWhile isPySpace relative) h1
  have hparts : dotdot ∈ resolveParts relative := by
    unfold resolveParts pyStrip
    refine List.mem_filter.mpr ⟨h2, ?_⟩
    decide
  simp only [resolve_under_root]
  rw [if_pos hparts]

/-- Witness for C1 at the concrete input `"../x"` over the trivial
filesystem. -/
theorem resolve_rejects_dotdot_witness :
    hasDotDotSegment ['.', '.', '/', 'x'] = true ∧
    resolve_under_root fsId [mediaSeg] ['.', '.', '/', 'x'] true false = none :=
  ⟨by decide,
   resolve_rejects_dotdot fsId [mediaSeg] ['.', '.', '/', 'x'] true false (by decide)⟩

/-- C10 counterexample: an entry named `" foo"` (leading whitespace)
directly under the root IS addressable — the relative string `"./ foo"`
resolves to it, because `strip()` only trims the ends of the whole string
and the `"."` segment shields the space.  This refutes the consequence
part of the claim. -/
theorem whitespace_name_still_addressable :
    spaceFoo.head? = some ' ' ∧ isPySpace ' ' = true ∧
    resolve_under_root fsId [mediaSeg] ['.', '/', ' ', 'f', 'o', 'o'] false false =
      some [mediaSeg, spaceFoo] := by
  decide

/-- C10 amended: `resolve_under_root` is invariant under stripping the whole
relative string (`resolve_under_root root r = resolve_under_root root
r.strip()` for every filesystem, root, and flags), since line 99 strips the
string and `strip` is idempotent; entries whose names begin or end with
whitespace stay addressable through strings where the whitespace is not at
a stripped end. -/
theorem resolve_under_root_strip_invariant (fs : FileSystem)
    (root : List PyStr) (relative : PyStr) (must_be_file must_be_dir : Bool) :
    resolve_under_root fs root relative must_be_file must_be_dir =
      resolve_under_root fs root (pyStrip relative) must_be_file must_be_dir := by
  simp only [resolve_under_root, resolveParts_pyStrip, underRootCheck_pyStrip]

/-- C2 counterexample: in `fsEscape` with root `media`, resolving `"link"`
fails the containment check (its canonical form `etc` escapes the root)
while resolving `"dir"` passes containment and fails only the
`must_be_file` existence/type check — and both produce the very same value
`none`, so the two failure causes ARE collapsed into one value. -/
theorem resolve_failure_causes_collapsed :
    (fsEscape.canonOk ([mediaSeg] ++ resolveParts linkSeg) = true ∧
      ¬underRootCheck fsEscape [mediaSeg] linkSeg ∧
      resolve_under_root fsEscape [mediaSeg] linkSeg true false = none) ∧
    (underRootCheck fsEscape [mediaSeg] dirSeg ∧
      fsEscape.isFile (fsEscape.canon ([mediaSeg] ++ resolveParts dirSeg)) = false ∧
      resolve_under_root fsEscape [mediaSeg] dirSeg true false = none) ∧
    resolve_under_root fsEscape [mediaSeg] linkSeg true false =
      resolve_under_root fsEscape [mediaSeg] dirSeg true false := by
  decide

/-- C2 amended: `resolve_under_root` never throws — it returns `none`
exactly when the lexical `".."` check, canonicalization, containment, or
the requested existence/type check fails, and the same single value `none`
is returned for every failure cause, so containment failures and
existence/type failures are NOT internally distinguishable; accordingly the
`view` caller maps every `none` (whatever its cause) to the one outcome
403 "forbidden". -/
theorem resolve_none_characterization (fs : FileSystem) (root : List PyStr)
    (relative : PyStr) (must_be_file must_be_dir : Bool) (path_query : PyStr) :
    (resolve_under_root fs root relative must_be_file must_be_dir = none ↔
      dotdot ∈ resolveParts relative ∨
      fs.canonOk (root ++ resolveParts relative) = false ∨
      ¬underRootCheck fs root relative ∨
      (must_be_file ∧ ¬(fs.isFile (fs.canon (root ++ resolveParts relative)) = true)) ∨
      (must_be_dir ∧ ¬(fs.isDir (fs.canon (root ++ resolveParts relative)) = true))) ∧
    (resolve_under_root fs root (pyStrip path_query) true false = none →
      view_route fs root path_query = ViewOutcome.forbidden) := by
  constructor
  · by_cases h1 : dotdot ∈ resolveParts relative
    · simp [resolve_under_root, h1]
    · by_cases h2 : fs.canonOk (root ++ resolveParts relative) = false
      · simp [resolve_under_root, h1, h2]
      · by_cases h3 : ¬underRootCheck fs root relative ∨
            (must_be_file ∧ ¬(fs.isFile (fs.canon (root ++ resolveParts relative)) = true)) ∨
            (must_be_dir ∧ ¬(fs.isDir (fs.canon (root ++ resolveParts relative)) = true))
        · simp only [resolve_under_root]
          rw [if_neg h1, if_neg h2, if_pos h3]
          simp only [true_iff]
          tauto
        · simp only [resolve_under_root]
          rw [if_neg h1, if_neg h2, if_neg h3]
          simp only [reduceCtorEq, false_iff]
          tauto
  · intro h
    simp [view_route, h]

/-- Witness for C2's amended theorem: in `fsEscape`, the containment failure
on `"link"` makes `view` answer 403. -/
theorem resolve_none_characterization_witness :
    view_route fsEscape [mediaSeg] linkSeg = ViewOutcome.forbidden :=
  (resolve_none_characterization fsEscape [mediaSeg] linkSeg true false linkSeg).2
    (by decide)

/-- C3: the debug `print(share_store.is_share_active(row))` at
src/app.py line 501 runs before the `if not row` guard, so a token with no
record makes the handler raise `AttributeError` (`None.get`), an uncaught
error (HTTP 500) — NOT the Not-Found response the claim (and the repo's own
test `test_v_invalid_token_returns_404`) requires.  Evaluated here at the
failing input: the empty store and an unknown token. -/
theorem view_by_token_missing_record_errors :
    get_by_token [] tokB = none ∧
    view_by_token [] fsId [mediaSeg] tokB 0 = TokenViewOutcome.error ∧
    view_by_token [] fsId [mediaSeg] tokB 0 ≠ TokenViewOutcome.notFound := by
  decide

/-- C4: `revoke` returns true iff a record with the token exists with null
`revoked_at`; success stamps `revoked_at = now`; any second call on the same
token returns false and leaves the table unchanged; after the call every
record with that token is inactive at every clock, whatever its expiry. -/
theorem revoke_spec (db : Store) (tok : PyStr) (t t' m : Nat) :
    ((revoke db tok t).1 = true ↔ ∃ r ∈ db, r.token = tok ∧ r.revoked_at = none) ∧
    ((revoke db tok t).1 = true →
      ∃ r ∈ (revoke db tok t).2, r.token = tok ∧ r.revoked_at = some t) ∧
    revoke (revoke db tok t).2 tok t' = (false, (revoke db tok t).2) ∧
    (∀ r ∈ (revoke db tok t).2, r.token = tok → is_share_active r m = false) := by
  refine ⟨?_, ?_, ?_, ?_⟩
  · simp [revoke, List.countP_pos_iff]
  · intro h
    rw [revoke] at h
    simp only [decide_eq_true_eq] at h
    rw [List.countP_pos_iff] at h
    obtain ⟨r, hr, hp⟩ := h
    simp only [decide_eq_true_eq] at hp
    refine ⟨ShareRecord.mk r.token r.file_path r.created_at r.expires_at (some t),
      ?_, hp.1, rfl⟩
    simp only [revoke]
    refine List.mem_map.mpr ⟨r, hr, ?_⟩
    rw [if_pos hp]
  · have hnone : ∀ r ∈ (revoke db tok t).2, ¬(r.token = tok ∧ r.revoked_at = none) := by
      intro r hr
      simp only [revoke, List.mem_map] at hr
      obtain ⟨r0, _, hmap⟩ := hr
      by_cases hc : r0.token = tok ∧ r0.revoked_at = none
      · rw [if_pos hc] at hmap
        rw [← hmap]
        rintro ⟨-, hrev⟩
        exact Option.noConfusion hrev
      · rw [if_neg hc] at hmap
        rw [← hmap]
        exact hc
    have hfst : (revoke (revoke db tok t).2 tok t').1 = false := by
      simp only [revoke, decide_eq_false_iff_not]
      intro hpos
      rw [List.countP_pos_iff] at hpos
      obtain ⟨r, hr, hp⟩ := hpos
      simp only [decide_eq_true_eq] at hp
      exact hnone r hr hp
    have hsnd : (revoke (revoke db tok t).2 tok t').2 = (revoke db tok t).2 := by
      conv_rhs => rw [← List.map_id ((revoke db tok t).2)]
      simp only [revoke]
      apply List.map_congr_left
      intro r hr
      rw [if_neg (hnone r hr)]
      rfl
    exact Prod.ext hfst hsnd
  · intro r hr htok
    simp only [revoke, List.mem_map] at hr
    obtain ⟨r0, _, hmap⟩ := hr
    by_cases hc : r0.token = tok ∧ r0.revoked_at = none
    · rw [if_pos hc] at hmap
      rw [← hmap]
      simp [is_share_active]
    · rw [if_neg hc] at hmap
      subst hmap
      have hrev : r0.revoked_at ≠ none := fun hn => hc ⟨htok, hn⟩
      obtain ⟨x, hx⟩ := Option.ne_none_iff_exists.mp hrev
      simp [is_share_active, ← hx]

/-- Witness for C4 on the one-row store: the first revoke returns true, the
second returns false and changes nothing. -/
theorem revoke_spec_witness :
    (revoke dbOne tokA 5).1 = true ∧
    revoke (revoke dbOne tokA 5).2 tokA 6 = (false, (revoke dbOne tokA 5).2) :=
  ⟨(revoke_spec dbOne tokA 5 6 7).1.mpr
      ⟨ShareRecord.mk tokA fpA 0 none none, by decide, rfl, rfl⟩,
   (revoke_spec dbOne tokA 5 6 7).2.2.1⟩

theorem latestCreated_none_iff (l : Store) : latestCreated l = none ↔ l = [] := by
  cases l with
  | nil => simp [latestCreated]
  | cons r rs =>
    simp only [latestCreated]
    constructor
    · intro h
      split at h
      · exact Option.noConfusion h
      · split at h <;> exact Option.noConfusion h
    · intro h
      exact List.noConfusion h

theorem latestCreated_spec (l : Store) (r : ShareRecord)
    (h : latestCreated l = some r) :
    r ∈ l ∧ ∀ x ∈ l, x.created_at ≤ r.created_at := by
  revert r
  induction l with
  | nil => intro r h; simp [latestCreated] at h
  | cons a as ih =>
    intro r h
    simp only [latestCreated] at h
    split at h
    · rename_i hrec
      have hnil : as = [] := (latestCreated_none_iff as).mp hrec
      subst hnil
      have : a = r := Option.some.inj h
      subst this
      exact ⟨List.mem_singleton_self a, by simp⟩
    · rename_i b hrec
      obtain ⟨hbmem, hbmax⟩ := ih b hrec
      by_cases hlt : b.created_at < a.created_at
      · rw [if_pos hlt] at h
        have : a = r := Option.some.inj h
        subst this
        refine ⟨List.mem_cons_self a as, ?_⟩
        intro x hx
        rcases List.mem_cons.mp hx with hxa | hxs
        · rw [hxa]
        · exact Nat.le_of_lt (Nat.lt_of_le_of_lt (hbmax x hxs) hlt)
      · rw [if_neg hlt] at h
        have : b = r := Option.some.inj h
        subst this
        refine ⟨List.mem_cons_of_mem a hbmem, ?_⟩
        intro x hx
        rcases List.mem_cons.mp hx with hxa | hxs
        · rw [hxa]; exact Nat.le_of_not_lt hlt
        · exact hbmax x hxs

/-- C7: `get_active_by_file_path` returns a stored record whose `file_path`
equals the argument exactly, whose `revoked_at` is null and whose
`expires_at` is null or strictly later than now, and whose `created_at` is
maximal among all such records; it returns `none` exactly when no record of
the store satisfies that row filter (in particular once the sole share for
the path is revoked or expired). -/
theorem get_active_by_file_path_spec (db : Store) (fp : PyStr) (now : Nat)
    (r : ShareRecord) :
    (get_active_by_file_path db fp now = some r →
      r ∈ db ∧ r.file_path = fp ∧ r.revoked_at = none ∧
      (∀ e, r.expires_at = some e → now < e) ∧
      (∀ r2 ∈ db, activeRowPred fp now r2 = true →
        r2.created_at ≤ r.created_at)) ∧
    (get_active_by_file_path db fp now = none ↔
      ∀ r2 ∈ db, activeRowPred fp now r2 = false) := by
  constructor
  · intro h
    obtain ⟨hmem, hmax⟩ := latestCreated_spec _ r h
    have hfil := List.mem_filter.mp hmem
    have hpred := hfil.2
    simp only [activeRowPred, Bool.and_eq_true, decide_eq_true_eq] at hpred
    refine ⟨hfil.1, hpred.1.1, hpred.1.2, ?_, ?_⟩
    · intro e he
      have h2 := hpred.2
      rw [he] at h2
      simpa [sqlNotExpired] using h2
    · intro r2 hr2 hp2
      exact hmax r2 (List.mem_filter.mpr ⟨hr2, hp2⟩)
  · rw [get_active_by_file_path, latestCreated_none_iff, List.filter_eq_nil_iff]
    constructor
    · intro h r2 hr2
      exact Bool.not_eq_true _ |>.mp (h r2 hr2)
    · intro h r2 hr2
      exact Bool.not_eq_true _ |>.mpr (h r2 hr2)

/-- Witness for C7 on the one-row store: the single active share is found
and it is the stored record for `fpA`. -/
theorem get_active_by_file_path_spec_witness :
    ShareRecord.mk tokA fpA 0 none none ∈ dbOne ∧
    (ShareRecord.mk tokA fpA 0 none none).file_path = fpA ∧
    (ShareRecord.mk tokA fpA 0 none none).revoked_at = none :=
  have h := (get_active_by_file_path_spec dbOne fpA 9
    (ShareRecord.mk tokA fpA 0 none none)).1 (by decide)
  ⟨h.1, h.2.1, h.2.2.1⟩

/-- C5: the store operations preserve the record invariants — `init` keeps
an existing table, `create_share` appends one row leaving every existing
row untouched (positionally identical), and `revoke` keeps the length (no
physical deletion) and changes nothing but `revoked_at`, which only ever
moves from null to a set value, never back and never once set. -/
theorem store_ops_preserve_record_invariants (db : Store) (fp : PyStr)
    (es : Option Nat) (tok : PyStr) (now : Nat) (i : Nat) (r r' : ShareRecord) :
    store_init (some db) = db ∧
    (create_share db fp es tok now).2.length = db.length + 1 ∧
    (i < db.length → (create_share db fp es tok now).2[i]? = db[i]?) ∧
    (revoke db tok now).2.length = db.length ∧
    (db[i]? = some r → (revoke db tok now).2[i]? = some r' →
      r'.token = r.token ∧ r'.file_path = r.file_path ∧
      r'.created_at = r.created_at ∧ r'.expires_at = r.expires_at ∧
      (r'.revoked_at = r.revoked_at ∨
        (r.revoked_at = none ∧ r'.revoked_at = some now)) ∧
      (r.revoked_at ≠ none → r'.revoked_at = r.revoked_at)) := by
  refine ⟨rfl, by simp [create_share], ?_, by simp [revoke], ?_⟩
  · intro h
    simp [create_share, List.getElem?_append, h]
  · intro h1 h2
    simp only [revoke, List.getElem?_map, h1, Option.map_some'] at h2
    have h2' := Option.some.inj h2
    by_cases hc : r.token = tok ∧ r.revoked_at = none
    · rw [if_pos hc] at h2'
      rw [← h2']
      refine ⟨rfl, rfl, rfl, rfl, Or.inr ⟨hc.2, rfl⟩, ?_⟩
      intro hne
      exact absurd hc.2 hne
    · rw [if_neg hc] at h2'
      rw [← h2']
      exact ⟨rfl, rfl, rfl, rfl, Or.inl rfl, fun _ => rfl⟩

/-- Witness for C5: creating a share keeps row 0 of `dbOne` in place, and a
revoke changes only `revoked_at` of that row. -/
theorem store_ops_preserve_record_invariants_witness :
    (create_share dbOne fpA none tokB 9).2[0]? = dbOne[0]? ∧
    (ShareRecord.mk tokA fpA 0 none (some 9)).file_path =
      (ShareRecord.mk tokA fpA 0 none none).file_path :=
  have h := store_ops_preserve_record_invariants dbOne fpA none tokA 9 0
    (ShareRecord.mk tokA fpA 0 none none) (ShareRecord.mk tokA fpA 0 none (some 9))
  ⟨(store_ops_preserve_record_invariants dbOne fpA none tokB 9 0
      (ShareRecord.mk tokA fpA 0 none none)
      (ShareRecord.mk tokA fpA 0 none (some 9))).2.2.1 (by decide),
   (h.2.2.2.2 (by decide) (by decide)).2.1⟩

/-- C6: `is_share_active` is false whenever `revoked_at` is set, true when
unrevoked with null `expires_at`, and for an unrevoked record with a set
expiry it is true exactly when the expiry is strictly later than the clock
value of this call. -/
theorem is_share_active_spec (row : ShareRecord) (now e : Nat) :
    (row.revoked_at ≠ none → is_share_active row now = false) ∧
    (row.revoked_at = none → row.expires_at = none →
      is_share_active row now = true) ∧
    (row.revoked_at = none → row.expires_at = some e →
      (is_share_active row now = true ↔ now < e)) := by
  refine ⟨?_, ?_, ?_⟩
  · intro h
    obtain ⟨x, hx⟩ := Option.ne_none_iff_exists.mp h
    simp [is_share_active, ← hx]
  · intro h1 h2
    simp [is_share_active, h1, h2]
  · intro h1 h2
    simp [is_share_active, h1, h2]

/-- Witness for C6: an unrevoked record expiring at 10 is active at clock 3. -/
theorem is_share_active_spec_witness :
    is_share_active (ShareRecord.mk tokA fpA 0 (some 10) none) 3 = true ↔ 3 < 10 :=
  (is_share_active_spec (ShareRecord.mk tokA fpA 0 (some 10) none) 3 10).2.2 rfl rfl

/-- C8: when `get_active_by_file_path` finds an active record for the
requested (stripped, resolvable) path, the POST share handler redirects
with that record's token and returns the store unchanged — no new record
is created. -/
theorem share_post_reuses_existing (fs : FileSystem) (root : List PyStr)
    (db : Store) (path_form expires cv cu : PyStr) (d : Nat) (ft : PyStr)
    (now : Nat) (p : List PyStr) (r : ShareRecord)
    (hne : ¬(pyStrip path_form = []))
    (hres : resolve_under_root fs root (pyStrip path_form) true false = some p)
    (hfile : fs.isFile p = true)
    (hact : get_active_by_file_path db (pyStrip path_form) now = some r) :
    share_post fs root db path_form expires cv cu d ft now =
      (ShareOutcome.redirectResult r.token, db) := by
  simp [share_post, hne, hres, hfile, hact]

/-- Witness for C8: sharing `fpA` again while `dbOne` holds its active
share returns the existing token `tokA` and leaves the store as it was. -/
theorem share_post_reuses_existing_witness :
    share_post fsId [mediaSeg] dbOne fpA ['n', 'e', 'v', 'e', 'r'] []
      ['h', 'o', 'u', 'r', 's'] 86400 tokB 0 =
      (ShareOutcome.redirectResult tokA, dbOne) :=
  share_post_reuses_existing fsId [mediaSeg] dbOne fpA
    ['n', 'e', 'v', 'e', 'r'] [] ['h', 'o', 'u', 'r', 's'] 86400 tokB 0
    [mediaSeg, fpA] (ShareRecord.mk tokA fpA 0 none none)
    (by decide) (by decide) (by decide) (by decide)

/-- C9 counterexample: the custom value `"0"` is non-positive, yet it
passes `isdigit()` and is converted to 0 seconds instead of falling back
to the configured default TTL (here 86400). -/
theorem compute_expiry_zero_not_default :
    compute_expiry ['c', 'u', 's', 't', 'o', 'm'] ['0'] ['h', 'o', 'u', 'r', 's']
        86400 = some 0 ∧
    ¬(0 < (0 : Nat)) ∧ (0 : Nat) ≠ 86400 := by
  decide

/-- C9 amended: `"never"` yields a null expiry; a digit-string custom value
— zero included — is converted to seconds (hours unless the unit is
`"days"`); any other input (non-digit custom values, unknown expiry
choices, and in particular negative numbers, which fail `isdigit`) silently
falls back to the configured default TTL. -/
theorem compute_expiry_spec (cv cu e : PyStr) (d : Nat) :
    compute_expiry ['n', 'e', 'v', 'e', 'r'] cv cu d = none ∧
    (pyIsDigit cv = true →
      compute_expiry ['c', 'u', 's', 't', 'o', 'm'] cv ['d', 'a', 'y', 's'] d =
        some (pyToNat cv * 86400)) ∧
    (pyIsDigit cv = true → ¬(cu = ['d', 'a', 'y', 's']) →
      compute_expiry ['c', 'u', 's', 't', 'o', 'm'] cv cu d =
        some (pyToNat cv * 3600)) ∧
    (pyIsDigit cv = false →
      compute_expiry ['c', 'u', 's', 't', 'o', 'm'] cv cu d = some d) ∧
    (¬(e = ['n', 'e', 'v', 'e', 'r']) → ¬(e = ['c', 'u', 's', 't', 'o', 'm']) →
      compute_expiry e cv cu d = some d) := by
  refine ⟨by simp [compute_expiry], ?_, ?_, ?_, ?_⟩
  · intro h
    simp [compute_expiry, h]
  · intro h hcu
    simp [compute_expiry, h, hcu]
  · intro h
    simp [compute_expiry, h]
  · intro h1 h2
    simp [compute_expiry, h1, h2]

/-- Witness for C9's amended theorem at the custom value `"0"` in days:
zero is converted, not replaced by the default. -/
theorem compute_expiry_spec_witness :
    compute_expiry ['c', 'u', 's', 't', 'o', 'm'] ['0'] ['d', 'a', 'y', 's'] 7 =
      some (pyToNat ['0'] * 86400) :=
  (compute_expiry_spec ['0'] ['d', 'a', 'y', 's'] ['x'] 7).2.1 (by decide)
